import Mathlib

set_option maxHeartbeats 1000000
set_option maxRecDepth 10000

/-!
Shallow embedding of src/main.c of Life-Boy, an interactive Conway Game of
Life simulator for the Game Boy.

The grid of cell states (the C array cell_states, reached through the
state pointers of the Cell structs in world) is embedded as a function
Nat → Nat → Bool; only indices x < WIDTH, y < HEIGHT are meaningful.
The battery-backed external RAM at 0xa000 is embedded as a byte store
Nat → Nat with relative addresses: address 0 is the save marker SAVED
and address 1 + k is the k-th byte of SAVED_STATES.
Machine integers: uint8_t values are Nat (stores reduced mod 256 where
the C code can overflow); C int arithmetic on promoted uint8_t and
int8_t operands is Int arithmetic (usual arithmetic conversions).
Rendering calls (set_bkg_tiles, set_tile_xy, move_sprite, HIDE_SPRITES,
SHOW_SPRITES) are fire-and-forget sinks and are not modelled; joypad()
is an input parameter of each tick; ENABLE_RAM_MBC1 / DISABLE_RAM_MBC1
only scope access to the byte store and have no observable effect here.
-/

/-- Grid width in tiles (the define WIDTH in main.c). -/
def WIDTH : Nat := 20

/-- Grid height in tiles (the define HEIGHT in main.c). -/
def HEIGHT : Nat := 18

/-- Live/dead states of all cells: the C array cell_states, as a total
function on coordinates. -/
abbrev Grid := Nat → Nat → Bool

/-- Conversion of a C int value to uint8_t (store truncates mod 256). -/
def toU8 (z : Int) : Nat := (z % 256).toNat

/-- ASCII byte values used by the save format: lowercase s marks an
existing save; uppercase L marks a live cell; uppercase D a dead cell. -/
def byteS : Nat := 115

/-- ASCII uppercase L, the live-cell sentinel byte. -/
def byteL : Nat := 76

/-- ASCII uppercase D, the dead-cell sentinel byte. -/
def byteD : Nat := 68

/-- Index wraparound used by the world-initialization loop in main:
i = x+dx, overridden to WIDTH-1 when x+dx == -1 and to 0 when
x+dx == WIDTH (same for y with HEIGHT).  The argument t is the promoted
int value x+dx. -/
def wrap (dim : Nat) (t : Int) : Nat :=
  if t = -1 then dim - 1
  else if t = (dim : Int) then 0
  else t.toNat

/-- The eight (dx,dy) offsets in the order the nested dx/dy loops of the
world-initialization code enumerate them (dx outer from -1 to 1, dy inner
from -1 to 1, skipping (0,0)). -/
def deltas : List (Int × Int) :=
  [(-1,-1),(-1,0),(-1,1),(0,-1),(0,1),(1,-1),(1,0),(1,1)]

/-- The neighbors array of world[x][y]: the eight wrapped coordinates, in
loop order, that the initialization code stores pointers to. -/
def neighborsOf (x y : Nat) : List (Nat × Nat) :=
  deltas.map (fun d => (wrap WIDTH ((x : Int) + d.1), wrap HEIGHT ((y : Int) + d.2)))

/-- Spec-side description of the same topology: the eight coordinates
((x+dx) mod WIDTH, (y+dy) mod HEIGHT) for the eight nonzero offsets.
Written from the words of the spec for comparison with neighborsOf. -/
def specNeighbors (x y : Nat) : List (Nat × Nat) :=
  deltas.map (fun d =>
    (((((x : Int) + d.1) % (WIDTH : Int))).toNat,
     ((((y : Int) + d.2) % (HEIGHT : Int))).toNat))

/-- The function cell_neighbors of main.c: sums state over the eight
neighbor references of the cell at (x,y). -/
def cell_neighbors (g : Grid) (x y : Nat) : Nat :=
  (neighborsOf x y).foldl (fun n p => n + (if g p.1 p.2 then 1 else 0)) 0

/-- Spec-side live-neighbor count: the number of live cells among the
eight toroidal neighbor positions of (x,y).  Written from the words of
the spec. -/
def specNeighborCount (g : Grid) (x y : Nat) : Nat :=
  (deltas.map (fun d =>
    if g (((((x : Int) + d.1) % (WIDTH : Int))).toNat)
         (((((y : Int) + d.2) % (HEIGHT : Int))).toNat)
    then 1 else 0)).sum

/-- The cell transition applied by the second (state-update) loop of the
generation code: a live cell with count other than 2 or 3 dies, a dead
cell with count 3 is born, otherwise the state is kept. -/
def lifeRule (b : Bool) (n : Nat) : Bool :=
  if b && !(n == 2) && !(n == 3) then false
  else if !b && (n == 3) then true
  else b

/-- Spec-side statement of the standard rule, written from the words of
the spec: a live cell with neighbor count not in two-or-three becomes
dead, a dead cell with neighbor count three becomes live, all other
cells retain their state. -/
def specStep (g : Grid) (x y : Nat) : Bool :=
  if g x y = true ∧ specNeighborCount g x y ≠ 2 ∧ specNeighborCount g x y ≠ 3 then false
  else if g x y = false ∧ specNeighborCount g x y = 3 then true
  else g x y

/-- The cells enumerated in the order shared by every loop of main.c:
x outer from 0 to WIDTH-1, y inner from 0 to HEIGHT-1. -/
def cellList : List (Nat × Nat) :=
  (List.range WIDTH).flatMap (fun x => (List.range HEIGHT).map (fun y => (x, y)))

/-- The second generation loop of main: walks the cells in order and
updates each state in place from the scratch counts; the state read for
the rule is the own current state of the cell at its turn. -/
def applyPhase2 (counts : Nat → Nat → Nat) (l : List (Nat × Nat)) (g : Grid) : Grid :=
  l.foldl
    (fun s c => fun x y =>
      if x = c.1 ∧ y = c.2 then lifeRule (s c.1 c.2) (counts c.1 c.2) else s x y)
    g

/-- One full generation: phase one fills the scratch buffer with
cell_neighbors of the current state for every cell, phase two rewrites
the states from that buffer (the two consecutive loops of main). -/
def generationPass (g : Grid) : Grid :=
  applyPhase2 (fun x y => cell_neighbors g x y) cellList g

/-- The Cursor struct of main.c. -/
structure Cursor where
  sprite : Nat
  x : Nat
  y : Nat
deriving DecidableEq

/-- The function move_cursor of main.c.  cursor->y and cursor->x are
uint8_t, dy and dx are int8_t; in the comparisons and sums both operands
are promoted to int, and the assignment truncates the int result to
uint8_t.  The trailing move_sprite call is a rendering sink and is not
modelled. -/
def move_cursor (c : Cursor) (dx dy : Int) : Cursor :=
  let y1 : Nat :=
    if dy = -1 then
      (if (c.y : Int) + dy < (HEIGHT : Int) then toU8 ((c.y : Int) + dy)
       else toU8 ((HEIGHT : Int) + dy))
    else if dy = 1 then
      (if (c.y : Int) + dy < (HEIGHT : Int) then toU8 ((c.y : Int) + dy)
       else 0)
    else c.y
  let x1 : Nat :=
    if dx = -1 then
      (if (c.x : Int) + dx < (WIDTH : Int) then toU8 ((c.x : Int) + dx)
       else toU8 ((WIDTH : Int) + dx))
    else if dx = 1 then
      (if (c.x : Int) + dx < (WIDTH : Int) then toU8 ((c.x : Int) + dx)
       else 0)
    else c.x
  { c with x := x1, y := y1 }

/-- GBDK joypad bitmask constants from gb/gb.h (library header, not part
of src/): distinct single bits per button. -/
def J_A : Nat := 16

/-- GBDK bitmask for the B button. -/
def J_B : Nat := 32

/-- GBDK bitmask for the SELECT button. -/
def J_SELECT : Nat := 64

/-- GBDK bitmask for the START button. -/
def J_START : Nat := 128

/-- GBDK bitmask for the RIGHT button. -/
def J_RIGHT : Nat := 1

/-- GBDK bitmask for the LEFT button. -/
def J_LEFT : Nat := 2

/-- GBDK bitmask for the UP button. -/
def J_UP : Nat := 4

/-- GBDK bitmask for the DOWN button. -/
def J_DOWN : Nat := 8

/-- Bit test of a joypad bitmask: (pad & mask) as a truth value. -/
def pressed (pad mask : Nat) : Bool := (pad &&& mask) != 0

/-- The edge-trigger guard used by every button action in the main loop:
(joypadCurr & mask) && !(joypadPrev & mask). -/
def newly (pad prev mask : Nat) : Bool := pressed pad mask && !(pressed prev mask)

/-- Clearing of all cell states by the SELECT action. -/
def clearCells (g : Grid) : Grid :=
  fun x y => if x < WIDTH ∧ y < HEIGHT then false else g x y

/-- Toggling of the cell under the cursor by the A action. -/
def toggleCell (g : Grid) (cx cy : Nat) : Grid :=
  fun x y => if x = cx ∧ y = cy then !(g cx cy) else g x y

/-- The save loop of the START action: walks the cells in order writing
one byte per cell at consecutive store addresses starting from the
running address in the accumulator (the auto-incremented pointer s). -/
def saveLoop (g : Grid) (l : List (Nat × Nat)) (acc : Nat × (Nat → Nat)) :
    Nat × (Nat → Nat) :=
  l.foldl
    (fun a c =>
      (a.1 + 1, fun b => if b = a.1 then (if g c.1 c.2 then byteL else byteD) else a.2 b))
    acc

/-- The whole START save action: write the marker byte s at address 0,
then one byte per cell from address 1 on, in cellList order. -/
def doSave (g : Grid) (sram : Nat → Nat) : Nat → Nat :=
  (saveLoop g cellList (1, fun a => if a = 0 then byteS else sram a)).2

/-- The load part of the world-initialization loop: for each cell in
order, when a save exists the cell becomes live exactly when the next
store byte equals the live sentinel, and the address advances; without a
save every cell is set dead. -/
def loadLoop (ls : Bool) (sram : Nat → Nat) (l : List (Nat × Nat))
    (acc : Nat × Grid) : Nat × Grid :=
  l.foldl
    (fun a c =>
      (a.1 + 1,
       fun x y =>
         if x = c.1 ∧ y = c.2 then (if ls then sram a.1 == byteL else false)
         else a.2 x y))
    acc

/-- Startup loading of the cell states: load_saved is the marker test
saved[0] == the s byte; the state bytes are read from address 1 on in
cellList order. -/
def loadGrid (sram : Nat → Nat) : Grid :=
  (loadLoop (sram 0 == byteS) sram cellList (1, fun _ _ => false)).2

/-- The mutable program state carried across iterations of the main
while loop (cell states, neighbor-count scratch buffer, cursor, running
flag, previous joypad sample, and the external byte store). -/
structure SysState where
  cells : Grid
  scratch : Nat → Nat → Nat
  cursor : Cursor
  running : Bool
  joypadPrev : Nat
  sram : Nat → Nat

/-- The paused branch of the main loop after the B edge test failed:
SELECT clears the cells, START saves the (possibly just cleared) cells,
A toggles the cell under the (not yet moved) cursor, and the four
directional edges move the cursor in the order UP, DOWN, LEFT, RIGHT.
The dataflow renders the sequential one-per-button if statements of the
C code. -/
def tickPaused (s : SysState) (pad prev : Nat) : SysState :=
  let cells1 := if newly pad prev J_SELECT then clearCells s.cells else s.cells
  let sram1 := if newly pad prev J_START then doSave cells1 s.sram else s.sram
  let cells2 := if newly pad prev J_A then toggleCell cells1 s.cursor.x s.cursor.y else cells1
  let cur1 := if newly pad prev J_UP then move_cursor s.cursor 0 (-1) else s.cursor
  let cur2 := if newly pad prev J_DOWN then move_cursor cur1 0 1 else cur1
  let cur3 := if newly pad prev J_LEFT then move_cursor cur2 (-1) 0 else cur2
  let cur4 := if newly pad prev J_RIGHT then move_cursor cur3 1 0 else cur3
  { s with joypadPrev := pad, cells := cells2, sram := sram1, cursor := cur4 }

/-- One iteration of the while loop of main, taking the fresh joypad()
sample as input.  The Bool result records whether this iteration reached
the generation code (false on every paused iteration and on every
iteration whose B press-edge toggles running and continues).  The
running branch first fills the scratch buffer with the neighbor counts
of the current states, then rewrites the states from the scratch
buffer. -/
def tickFull (s : SysState) (pad : Nat) : SysState × Bool :=
  let prev := s.joypadPrev
  if !s.running then
    if newly pad prev J_B then
      ({ s with joypadPrev := pad, running := true }, false)
    else
      (tickPaused s pad prev, false)
  else
    if newly pad prev J_B then
      ({ s with joypadPrev := pad, running := false }, false)
    else
      let scr : Nat → Nat → Nat := fun x y =>
        if x < WIDTH ∧ y < HEIGHT then cell_neighbors s.cells x y else s.scratch x y
      ({ s with joypadPrev := pad, scratch := scr,
                cells := applyPhase2 scr cellList s.cells }, true)

/-- The state transformer of one loop iteration. -/
def tick (s : SysState) (pad : Nat) : SysState := (tickFull s pad).1

/-- The state reached before iteration k of the main loop, given the
start state and the per-iteration joypad samples. -/
def runTicks (s0 : SysState) (pads : Nat → Nat) : Nat → SysState
  | 0 => s0
  | k + 1 => tick (runTicks s0 pads k) (pads k)

/-- All-dead grid (one of the three round-trip test patterns). -/
def deadGrid : Grid := fun _ _ => false

/-- All-live grid (one of the three round-trip test patterns). -/
def liveGrid : Grid := fun _ _ => true

/-- The five-cell glider seed of the spec at anchor (0,0): cells
(1,0), (2,1), (0,2), (1,2), (2,2). -/
def gliderGrid : Grid := fun x y =>
  decide ((x = 1 ∧ y = 0) ∨ (x = 2 ∧ y = 1) ∨ (x = 0 ∧ y = 2) ∨
          (x = 1 ∧ y = 2) ∨ (x = 2 ∧ y = 2))

/-- A concrete paused start state matching the startup values of main
(cursor at the grid center, running false, empty world, clear store). -/
def pausedState : SysState where
  cells := fun _ _ => false
  scratch := fun _ _ => 0
  cursor := { sprite := 0, x := WIDTH / 2 - 1, y := HEIGHT / 2 - 1 }
  running := false
  joypadPrev := 0
  sram := fun _ => 0

/-- A concrete running state with no button previously held. -/
def runningState : SysState := { pausedState with running := true }

/-- Joypad samples holding the B button from tick 0 on. -/
def padsHeldB : Nat → Nat := fun _ => J_B

/-- Joypad samples with B down on ticks 0 and 1 and nothing afterwards
(the nearest realizable version of a press on two consecutive ticks). -/
def padsBB : Nat → Nat := fun k => if k ≤ 1 then J_B else 0

/-- Joypad samples with B press-edges on ticks 0 and 2 (release on
tick 1) and B still held on tick 3: pause, earliest resume, no further
edge. -/
def padsPauseResume : Nat → Nat := fun k => if k = 1 then 0 else J_B

/-- A concrete store holding only the save marker (all state bytes 0). -/
def markerOnlySram : Nat → Nat := fun a => if a = 0 then byteS else 0

/-! Helper lemmas about the cell enumeration. -/

/-- Nodup of the cell enumeration: every cell appears exactly once. -/
theorem nodup_cellList : cellList.Nodup := by
  unfold cellList
  rw [List.nodup_flatMap]
  constructor
  · intro x hx
    exact (List.nodup_range HEIGHT).map (fun a b h => by simpa using h)
  · refine (List.pairwise_lt_range WIDTH).imp ?_
    intro a b hab p hpa hpb
    simp only [List.mem_map, List.mem_range] at hpa hpb
    obtain ⟨y1, hy1, he1⟩ := hpa
    obtain ⟨y2, hy2, he2⟩ := hpb
    rw [← he1] at he2
    simp at he2
    omega

/-- Position formula of the cell enumeration: cell (x,y) sits at index
x * HEIGHT + y, matching the auto-incremented save pointer. -/
theorem cellList_getD_fin (p : Fin 20) (q : Fin 18) :
    cellList.getD (p.val * 18 + q.val) (0, 0) = (p.val, q.val) := by
  revert p q
  decide

/-- Nat-level version of the position formula. -/
theorem cellList_getD (x y : Nat) (hx : x < WIDTH) (hy : y < HEIGHT) :
    cellList.getD (x * HEIGHT + y) (0, 0) = (x, y) :=
  cellList_getD_fin ⟨x, hx⟩ ⟨y, hy⟩

/-- Membership in the cell enumeration is exactly in-bounds coordinates. -/
theorem mem_cellList (x y : Nat) : (x, y) ∈ cellList ↔ (x < WIDTH ∧ y < HEIGHT) := by
  simp [cellList, List.mem_flatMap, List.mem_map, List.mem_range, WIDTH, HEIGHT]

/-- Length of the cell enumeration. -/
theorem length_cellList : cellList.length = 360 := by decide

/-! Helper lemmas about the toroidal wraparound. -/

/-- The boundary-check wraparound of the initialization loop equals
reduction mod WIDTH, for in-range x and offsets in {-1,0,1}. -/
theorem wrap_w_eq (x : Nat) (d : Int) (hx : x < WIDTH) (hd : d = -1 ∨ d = 0 ∨ d = 1) :
    wrap WIDTH ((x : Int) + d) = ((((x : Int) + d) % (WIDTH : Int))).toNat := by
  have hw : WIDTH = 20 := rfl
  rw [hw] at hx ⊢
  unfold wrap
  rcases hd with h | h | h <;> subst h <;> split_ifs with h1 h2 <;>
    (try push_cast at h1) <;> (try push_cast at h2) <;> push_cast <;> omega

/-- The boundary-check wraparound of the initialization loop equals
reduction mod HEIGHT, for in-range y and offsets in {-1,0,1}. -/
theorem wrap_h_eq (y : Nat) (d : Int) (hy : y < HEIGHT) (hd : d = -1 ∨ d = 0 ∨ d = 1) :
    wrap HEIGHT ((y : Int) + d) = ((((y : Int) + d) % (HEIGHT : Int))).toNat := by
  have hh : HEIGHT = 18 := rfl
  rw [hh] at hy ⊢
  unfold wrap
  rcases hd with h | h | h <;> subst h <;> split_ifs with h1 h2 <;>
    (try push_cast at h1) <;> (try push_cast at h2) <;> push_cast <;> omega

/-- Offsets appearing in deltas have both components in {-1,0,1}. -/
theorem deltas_mem_range (d : Int × Int) (hd : d ∈ deltas) :
    (d.1 = -1 ∨ d.1 = 0 ∨ d.1 = 1) ∧ (d.2 = -1 ∨ d.2 = 0 ∨ d.2 = 1) := by
  simp only [deltas, List.mem_cons, List.not_mem_nil, or_false] at hd
  rcases hd with h|h|h|h|h|h|h|h <;> subst h <;> simp

/-- The neighbor array built by the initialization loop lists exactly
the coordinates ((x+dx) mod WIDTH, (y+dy) mod HEIGHT) in deltas order. -/
theorem neighborsOf_eq_spec (x y : Nat) (hx : x < WIDTH) (hy : y < HEIGHT) :
    neighborsOf x y = specNeighbors x y := by
  unfold neighborsOf specNeighbors
  refine List.map_congr_left ?_
  intro d hd
  obtain ⟨hd1, hd2⟩ := deltas_mem_range d hd
  rw [wrap_w_eq x d.1 hx hd1, wrap_h_eq y d.2 hy hd2]

/-! Helper lemmas about counting and the transition rule. -/

/-- Folding addition of per-element weights equals the sum of the mapped
list. -/
theorem foldl_add_map (F : Nat × Nat → Nat) (l : List (Nat × Nat)) :
    ∀ a : Nat, l.foldl (fun n p => n + F p) a = a + (l.map F).sum := by
  induction l with
  | nil => intro a; simp
  | cons c t ih =>
    intro a
    rw [List.foldl_cons, List.map_cons, List.sum_cons, ih]
    omega

/-- cell_neighbors computes the spec-side toroidal live-neighbor count. -/
theorem cell_neighbors_eq_spec (g : Grid) (x y : Nat) (hx : x < WIDTH) (hy : y < HEIGHT) :
    cell_neighbors g x y = specNeighborCount g x y := by
  unfold cell_neighbors specNeighborCount
  rw [foldl_add_map, neighborsOf_eq_spec x y hx hy, Nat.zero_add]
  unfold specNeighbors
  rw [List.map_map]
  rfl

/-- The in-place transition of the second loop written as the spec rule. -/
theorem lifeRule_eq_specRule (b : Bool) (n : Nat) :
    lifeRule b n = (if b = true ∧ n ≠ 2 ∧ n ≠ 3 then false
                    else if b = false ∧ n = 3 then true else b) := by
  cases b <;> by_cases h2 : n = 2 <;> by_cases h3 : n = 3 <;> simp [lifeRule, h2, h3]

/-! Helper lemmas about the second generation loop. -/

/-- Unfolding of applyPhase2 on a cons. -/
theorem applyPhase2_cons (counts : Nat → Nat → Nat) (c : Nat × Nat)
    (t : List (Nat × Nat)) (g : Grid) :
    applyPhase2 counts (c :: t) g =
      applyPhase2 counts t
        (fun x y => if x = c.1 ∧ y = c.2
                    then lifeRule (g c.1 c.2) (counts c.1 c.2) else g x y) := rfl

/-- Cells not visited by the loop keep their state. -/
theorem applyPhase2_not_mem (counts : Nat → Nat → Nat) (l : List (Nat × Nat))
    (g : Grid) (x y : Nat) (h : (x, y) ∉ l) :
    applyPhase2 counts l g x y = g x y := by
  induction l generalizing g with
  | nil => rfl
  | cons c t ih =>
    have hc : (x, y) ≠ c := fun he => h (he ▸ List.mem_cons_self c t)
    have ht : (x, y) ∉ t := fun he => h (List.mem_cons_of_mem c he)
    rw [applyPhase2_cons, ih _ ht]
    have : ¬(x = c.1 ∧ y = c.2) := fun hxy => hc (Prod.ext_iff.mpr hxy)
    simp [this]

/-- On a duplicate-free visit order, the sequential in-place loop gives
every visited cell the rule applied to its own pre-loop state and its
scratch count: the simultaneous update. -/
theorem applyPhase2_mem (counts : Nat → Nat → Nat) (l : List (Nat × Nat))
    (hnd : l.Nodup) (g : Grid) (x y : Nat) (h : (x, y) ∈ l) :
    applyPhase2 counts l g x y = lifeRule (g x y) (counts x y) := by
  induction l generalizing g with
  | nil => cases h
  | cons c t ih =>
    obtain ⟨hct, hnt⟩ := List.nodup_cons.mp hnd
    rw [applyPhase2_cons]
    rcases List.mem_cons.mp h with he | ht
    · have hnotm : (x, y) ∉ t := by rw [he]; exact hct
      rw [applyPhase2_not_mem _ _ _ _ _ hnotm]
      have h1 : c.1 = x := by rw [← he]
      have h2 : c.2 = y := by rw [← he]
      simp [h1, h2]
    · have hne : (x, y) ≠ c := fun hc => hct (hc ▸ ht)
      rw [ih hnt _ ht]
      have : ¬(x = c.1 ∧ y = c.2) := fun hxy => hne (Prod.ext_iff.mpr hxy)
      simp [this]

/-- The loop result depends on the counts only at visited cells. -/
theorem applyPhase2_congr (c1 c2 : Nat → Nat → Nat) (l : List (Nat × Nat))
    (h : ∀ p ∈ l, c1 p.1 p.2 = c2 p.1 p.2) (g : Grid) :
    applyPhase2 c1 l g = applyPhase2 c2 l g := by
  induction l generalizing g with
  | nil => rfl
  | cons c t ih =>
    rw [applyPhase2_cons, applyPhase2_cons, h c (List.mem_cons_self c t)]
    exact ih (fun p hp => h p (List.mem_cons_of_mem c hp)) _

/-- One generation maps every in-bounds cell by the rule applied to its
pre-pass state and pre-pass neighbor count. -/
theorem generationPass_rule (g : Grid) (x y : Nat) (hx : x < WIDTH) (hy : y < HEIGHT) :
    generationPass g x y = lifeRule (g x y) (cell_neighbors g x y) := by
  unfold generationPass
  exact applyPhase2_mem _ _ nodup_cellList g x y ((mem_cellList x y).mpr ⟨hx, hy⟩)

/-! Helper lemmas about the save and load loops. -/

/-- Unfolding of saveLoop on a cons. -/
theorem saveLoop_cons (g : Grid) (c : Nat × Nat) (t : List (Nat × Nat))
    (a : Nat) (m : Nat → Nat) :
    saveLoop g (c :: t) (a, m) =
      saveLoop g t
        (a + 1, fun b => if b = a then (if g c.1 c.2 then byteL else byteD) else m b) := rfl

/-- Addresses below the running address are never written by the save
loop. -/
theorem saveLoop_lt (g : Grid) (l : List (Nat × Nat)) :
    ∀ (a : Nat) (m : Nat → Nat) (b : Nat), b < a → (saveLoop g l (a, m)).2 b = m b := by
  induction l with
  | nil => intro a m b hb; rfl
  | cons c t ih =>
    intro a m b hb
    rw [saveLoop_cons, ih (a + 1) _ b (by omega)]
    simp [show b ≠ a from by omega]

/-- The byte written for the k-th enumerated cell lands k addresses past
the start address and encodes the state of that cell. -/
theorem saveLoop_getD (g : Grid) :
    ∀ (l : List (Nat × Nat)) (k : Nat), k < l.length → ∀ (a : Nat) (m : Nat → Nat),
      (saveLoop g l (a, m)).2 (a + k) =
        (if g (l.getD k (0, 0)).1 (l.getD k (0, 0)).2 then byteL else byteD) := by
  intro l
  induction l with
  | nil => intro k hk; simp at hk
  | cons c t ih =>
    intro k hk a m
    rw [saveLoop_cons]
    cases k with
    | zero =>
      simp only [Nat.add_zero, List.getD_cons_zero]
      rw [saveLoop_lt g t (a + 1) _ a (by omega)]
      simp
    | succ kk =>
      rw [show a + (kk + 1) = (a + 1) + kk from by omega,
          ih kk (by simpa using hk) (a + 1) _]
      simp

/-- The marker byte of a save. -/
theorem doSave_marker (g : Grid) (sram : Nat → Nat) : doSave g sram 0 = byteS := by
  unfold doSave
  rw [saveLoop_lt g cellList 1 _ 0 (by omega)]
  simp

/-- The save byte of the in-bounds cell (x,y) sits at address
1 + (x * HEIGHT + y) and encodes its state. -/
theorem doSave_cell (g : Grid) (sram : Nat → Nat) (x y : Nat)
    (hx : x < WIDTH) (hy : y < HEIGHT) :
    doSave g sram (1 + (x * HEIGHT + y)) = (if g x y then byteL else byteD) := by
  unfold doSave
  have h20 : WIDTH = 20 := rfl
  have h18 : HEIGHT = 18 := rfl
  have hk : x * HEIGHT + y < cellList.length := by
    rw [length_cellList, h18]
    rw [h20] at hx
    rw [h18] at hy
    omega
  rw [saveLoop_getD g cellList (x * HEIGHT + y) hk 1 _, cellList_getD x y hx hy]

/-- Unfolding of loadLoop on a cons. -/
theorem loadLoop_cons (ls : Bool) (sram : Nat → Nat) (c : Nat × Nat)
    (t : List (Nat × Nat)) (a : Nat) (g : Grid) :
    loadLoop ls sram (c :: t) (a, g) =
      loadLoop ls sram t
        (a + 1, fun x y => if x = c.1 ∧ y = c.2 then (if ls then sram a == byteL else false)
                           else g x y) := rfl

/-- Cells not visited by the load loop keep their initial state. -/
theorem loadLoop_not_mem (ls : Bool) (sram : Nat → Nat) (l : List (Nat × Nat)) :
    ∀ (a : Nat) (g : Grid) (x y : Nat), (x, y) ∉ l →
      (loadLoop ls sram l (a, g)).2 x y = g x y := by
  induction l with
  | nil => intro a g x y h; rfl
  | cons c t ih =>
    intro a g x y h
    have hc : (x, y) ≠ c := fun he => h (he ▸ List.mem_cons_self c t)
    have ht : (x, y) ∉ t := fun he => h (List.mem_cons_of_mem c he)
    rw [loadLoop_cons, ih _ _ _ _ ht]
    have hne : ¬(x = c.1 ∧ y = c.2) := fun hxy => hc (Prod.ext_iff.mpr hxy)
    simp [hne]

/-- On a duplicate-free visit order, the k-th enumerated cell is loaded
from the byte k addresses past the start address. -/
theorem loadLoop_getD (ls : Bool) (sram : Nat → Nat) :
    ∀ (l : List (Nat × Nat)), l.Nodup → ∀ (k : Nat), k < l.length →
      ∀ (a : Nat) (g : Grid),
      (loadLoop ls sram l (a, g)).2 (l.getD k (0, 0)).1 (l.getD k (0, 0)).2 =
        (if ls then sram (a + k) == byteL else false) := by
  intro l
  induction l with
  | nil => intro hnd k hk; simp at hk
  | cons c t ih =>
    intro hnd k hk a g
    obtain ⟨hct, hnt⟩ := List.nodup_cons.mp hnd
    rw [loadLoop_cons]
    cases k with
    | zero =>
      have hcm : (c.1, c.2) ∉ t := by simpa using hct
      rw [List.getD_cons_zero, loadLoop_not_mem ls sram t (a + 1) _ c.1 c.2 hcm]
      simp
    | succ kk =>
      rw [List.getD_cons_succ,
          show a + (kk + 1) = (a + 1) + kk from by omega,
          ih hnt kk (by simpa using hk) (a + 1) _]

/-- When no save exists every cell the load loop writes is dead, and the
initial grid is all dead. -/
theorem loadLoop_false (sram : Nat → Nat) (l : List (Nat × Nat)) :
    ∀ (a : Nat) (g : Grid), (∀ x y, g x y = false) →
      ∀ x y, (loadLoop false sram l (a, g)).2 x y = false := by
  induction l with
  | nil => intro a g hg x y; exact hg x y
  | cons c t ih =>
    intro a g hg x y
    rw [loadLoop_cons]
    refine ih _ _ (fun u v => ?_) x y
    by_cases h : u = c.1 ∧ v = c.2 <;> simp [h, hg u v]

/-- Characterization of startup loading at in-bounds cells: live exactly
when a save exists and the byte of the cell is the live sentinel. -/
theorem loadGrid_char (sram : Nat → Nat) (x y : Nat)
    (hx : x < WIDTH) (hy : y < HEIGHT) :
    loadGrid sram x y =
      (if sram 0 == byteS then sram (1 + (x * HEIGHT + y)) == byteL else false) := by
  unfold loadGrid
  have h20 : WIDTH = 20 := rfl
  have h18 : HEIGHT = 18 := rfl
  have hk : x * HEIGHT + y < cellList.length := by
    rw [length_cellList, h18]
    rw [h20] at hx
    rw [h18] at hy
    omega
  have hg := loadLoop_getD (sram 0 == byteS) sram cellList nodup_cellList
    (x * HEIGHT + y) hk 1 (fun _ _ => false)
  rw [cellList_getD x y hx hy] at hg
  simpa using hg

/-- A save followed by a load reproduces the state of every in-bounds
cell, for every grid and every prior store content. -/
theorem save_load_roundtrip (g : Grid) (sram : Nat → Nat) (x y : Nat)
    (hx : x < WIDTH) (hy : y < HEIGHT) :
    loadGrid (doSave g sram) x y = g x y := by
  rw [loadGrid_char (doSave g sram) x y hx hy, doSave_marker g sram,
      doSave_cell g sram x y hx hy]
  cases hgxy : g x y <;> simp [byteS, byteL, byteD]

/-! Helper lemmas about the main-loop tick. -/

/-- The paused branch never changes the running flag. -/
theorem tickPaused_running (s : SysState) (pad prev : Nat) :
    (tickPaused s pad prev).running = s.running := rfl

/-- Every branch of the loop body stores the fresh joypad sample as the
previous sample for the next iteration. -/
theorem tick_joypadPrev (s : SysState) (pad : Nat) : (tick s pad).joypadPrev = pad := by
  unfold tick tickFull
  cases hr : s.running <;> simp [hr] <;> split <;> rfl

/-- A running iteration without a B press-edge reaches the generation
code. -/
theorem tickFull_gen_true (s : SysState) (pad : Nat) (hr : s.running = true)
    (hb : newly pad s.joypadPrev J_B = false) : (tickFull s pad).2 = true := by
  unfold tickFull
  simp [hr, hb]

/-- No paused iteration reaches the generation code. -/
theorem tickFull_gen_paused (s : SysState) (pad : Nat) (hr : s.running = false) :
    (tickFull s pad).2 = false := by
  unfold tickFull
  simp [hr]
  split <;> rfl

/-- An iteration with a B press-edge (pause or resume) continues before
the generation code. -/
theorem tickFull_gen_edge (s : SysState) (pad : Nat)
    (hb : newly pad s.joypadPrev J_B = true) : (tickFull s pad).2 = false := by
  unfold tickFull
  cases hr : s.running <;> simp [hr, hb]

/-- A B press-edge while running pauses. -/
theorem tick_run_pause (s : SysState) (pad : Nat) (hr : s.running = true)
    (hb : newly pad s.joypadPrev J_B = true) : (tick s pad).running = false := by
  unfold tick tickFull
  simp [hr, hb]

/-- A paused iteration without a B press-edge stays paused. -/
theorem tick_paused_stay (s : SysState) (pad : Nat) (hr : s.running = false)
    (hb : newly pad s.joypadPrev J_B = false) : (tick s pad).running = false := by
  unfold tick tickFull
  simp [hr, hb, tickPaused_running]

/-- A B press-edge while paused resumes. -/
theorem tick_paused_resume (s : SysState) (pad : Nat) (hr : s.running = false)
    (hb : newly pad s.joypadPrev J_B = true) : (tick s pad).running = true := by
  unfold tick tickFull
  simp [hr, hb]

/-- A running iteration without a B press-edge stays running. -/
theorem tick_run_stay (s : SysState) (pad : Nat) (hr : s.running = true)
    (hb : newly pad s.joypadPrev J_B = false) : (tick s pad).running = true := by
  unfold tick tickFull
  simp [hr, hb]

/-! The claims. -/

/-- C1: one generation step maps every in-bounds cell by the standard
rule on its count n of live toroidal neighbors: a live cell with n not
2 and not 3 becomes dead; a dead cell with n = 3 becomes live; in every
other case the state is unchanged. -/
theorem C1_generation_rule (g : Grid) (x y : Nat) (hx : x < WIDTH) (hy : y < HEIGHT) :
    (g x y = true → specNeighborCount g x y ≠ 2 → specNeighborCount g x y ≠ 3 →
      generationPass g x y = false) ∧
    (g x y = false → specNeighborCount g x y = 3 → generationPass g x y = true) ∧
    (g x y = true → (specNeighborCount g x y = 2 ∨ specNeighborCount g x y = 3) →
      generationPass g x y = true) ∧
    (g x y = false → specNeighborCount g x y ≠ 3 → generationPass g x y = false) := by
  have h := generationPass_rule g x y hx hy
  rw [cell_neighbors_eq_spec g x y hx hy, lifeRule_eq_specRule] at h
  refine ⟨?_, ?_, ?_, ?_⟩
  · intro h1 h2 h3
    simp [h, h1, h2, h3]
  · intro h1 h2
    simp [h, h1, h2]
  · intro h1 h2
    rcases h2 with h2 | h2 <;> simp [h, h1, h2]
  · intro h1 h2
    simp [h, h1, h2]

/-- Witness for C1 at the glider seed and cell (1,1) (dead, five live
neighbors, stays dead). -/
theorem C1_generation_rule_witness :
    (1 < WIDTH ∧ 1 < HEIGHT) ∧
    ((gliderGrid 1 1 = true → specNeighborCount gliderGrid 1 1 ≠ 2 →
        specNeighborCount gliderGrid 1 1 ≠ 3 → generationPass gliderGrid 1 1 = false) ∧
     (gliderGrid 1 1 = false → specNeighborCount gliderGrid 1 1 = 3 →
        generationPass gliderGrid 1 1 = true) ∧
     (gliderGrid 1 1 = true →
        (specNeighborCount gliderGrid 1 1 = 2 ∨ specNeighborCount gliderGrid 1 1 = 3) →
        generationPass gliderGrid 1 1 = true) ∧
     (gliderGrid 1 1 = false → specNeighborCount gliderGrid 1 1 ≠ 3 →
        generationPass gliderGrid 1 1 = false)) :=
  ⟨by decide, C1_generation_rule gliderGrid 1 1 (by decide) (by decide)⟩

/-- C2: on a running tick that reaches the generation code, the in-place
two-phase pass equals the simultaneous spec update at every in-bounds
cell, and one tick is a pure function of state and input. -/
theorem C2_two_phase :
    (∀ (s : SysState) (pad x y : Nat), s.running = true →
      newly pad s.joypadPrev J_B = false → x < WIDTH → y < HEIGHT →
      (tick s pad).cells x y = specStep s.cells x y) ∧
    (∀ (s : SysState) (pad : Nat), tick s pad = tick s pad) := by
  constructor
  · intro s pad x y hr hb hx hy
    have ht : (tick s pad).cells =
        applyPhase2
          (fun u v => if u < WIDTH ∧ v < HEIGHT then cell_neighbors s.cells u v
                      else s.scratch u v)
          cellList s.cells := by
      unfold tick tickFull
      simp [hr, hb]
    have hcong : applyPhase2
        (fun u v => if u < WIDTH ∧ v < HEIGHT then cell_neighbors s.cells u v
                    else s.scratch u v)
        cellList s.cells = generationPass s.cells := by
      unfold generationPass
      refine applyPhase2_congr _ _ cellList (fun p hp => ?_) s.cells
      have hbounds : p.1 < WIDTH ∧ p.2 < HEIGHT := (mem_cellList p.1 p.2).mp hp
      simp [hbounds]
    rw [ht, hcong, generationPass_rule s.cells x y hx hy,
        cell_neighbors_eq_spec s.cells x y hx hy, lifeRule_eq_specRule]
    rfl
  · intro s pad
    rfl

/-- Witness for C2 at a concrete running state, input 0, cell (0,0). -/
theorem C2_two_phase_witness :
    (runningState.running = true ∧ newly 0 runningState.joypadPrev J_B = false ∧
     0 < WIDTH ∧ 0 < HEIGHT) ∧
    (tick runningState 0).cells 0 0 = specStep runningState.cells 0 0 :=
  ⟨⟨rfl, by decide, by decide, by decide⟩,
   C2_two_phase.1 runningState 0 0 0 rfl (by decide) (by decide) (by decide)⟩

/-- Neighbor coordinates are always in bounds. -/
theorem spec_mem_bounds (x y : Nat) (p : Nat × Nat) (hp : p ∈ specNeighbors x y) :
    p.1 < WIDTH ∧ p.2 < HEIGHT := by
  have h20 : WIDTH = 20 := rfl
  have h18 : HEIGHT = 18 := rfl
  rw [h20, h18]
  simp only [specNeighbors, h20, h18, List.mem_map] at hp
  obtain ⟨d, hd, rfl⟩ := hp
  constructor <;> dsimp only <;> push_cast <;> omega

/-- The toroidal neighbor relation is symmetric on the spec-side lists. -/
theorem spec_symm (x y : Nat) (hx : x < WIDTH) (hy : y < HEIGHT) (p : Nat × Nat)
    (hp : p ∈ specNeighbors x y) : (x, y) ∈ specNeighbors p.1 p.2 := by
  have h20 : WIDTH = 20 := rfl
  have h18 : HEIGHT = 18 := rfl
  have hx20 : x < 20 := h20 ▸ hx
  have hy18 : y < 18 := h18 ▸ hy
  simp only [specNeighbors, List.mem_map] at hp
  obtain ⟨d, hd, rfl⟩ := hp
  simp only [deltas, List.mem_cons, List.not_mem_nil, or_false] at hd
  simp only [specNeighbors]
  refine List.mem_map.mpr ⟨(-d.1, -d.2), ?_, ?_⟩
  · rcases hd with h|h|h|h|h|h|h|h <;> subst h <;> decide
  · rcases hd with h|h|h|h|h|h|h|h <;> subst h <;> dsimp only <;>
      rw [h20, h18] <;> rw [Prod.mk.injEq] <;> constructor <;> push_cast <;> omega

/-- C3: after startup initialization every in-bounds cell has exactly 8
neighbor references, namely ((x+dx) mod WIDTH, (y+dy) mod HEIGHT) for
the eight nonzero offsets, each exactly once; the is-neighbor-of
relation is symmetric, and no cell is its own neighbor. -/
theorem C3_topology (x y : Nat) (hx : x < WIDTH) (hy : y < HEIGHT) :
    neighborsOf x y = specNeighbors x y ∧
    (neighborsOf x y).length = 8 ∧
    (neighborsOf x y).Nodup ∧
    (x, y) ∉ neighborsOf x y ∧
    (∀ p ∈ neighborsOf x y, (x, y) ∈ neighborsOf p.1 p.2) := by
  have h20 : WIDTH = 20 := rfl
  have h18 : HEIGHT = 18 := rfl
  have hx20 : x < 20 := h20 ▸ hx
  have hy18 : y < 18 := h18 ▸ hy
  have heq := neighborsOf_eq_spec x y hx hy
  refine ⟨heq, ?_, ?_, ?_, ?_⟩
  · simp [neighborsOf, deltas]
  · rw [heq]
    simp only [specNeighbors, deltas, List.map_cons, List.map_nil, h20, h18,
      List.nodup_cons, List.mem_cons, List.not_mem_nil, or_false, List.nodup_nil,
      and_true, Prod.mk.injEq, not_or]
    push_cast
    simp only [true_and, and_true, not_false_eq_true]
    omega
  · rw [heq]
    simp only [specNeighbors, deltas, List.map_cons, List.map_nil, h20, h18,
      List.mem_cons, List.not_mem_nil, or_false, Prod.mk.injEq, not_or]
    push_cast
    omega
  · intro p hp
    rw [heq] at hp
    obtain ⟨hp1, hp2⟩ := spec_mem_bounds x y p hp
    rw [neighborsOf_eq_spec p.1 p.2 hp1 hp2]
    exact spec_symm x y hx hy p hp

/-- Witness for C3 at cell (0,0), where every wraparound branch fires. -/
theorem C3_topology_witness :
    (0 < WIDTH ∧ 0 < HEIGHT) ∧
    (neighborsOf 0 0 = specNeighbors 0 0 ∧
     (neighborsOf 0 0).length = 8 ∧
     (neighborsOf 0 0).Nodup ∧
     (0, 0) ∉ neighborsOf 0 0 ∧
     (∀ p ∈ neighborsOf 0 0, (0, 0) ∈ neighborsOf p.1 p.2)) :=
  ⟨by decide, C3_topology 0 0 (by decide) (by decide)⟩

/-- C4 evaluation at the failing input: because the comparisons in
move_cursor are done after promotion to int, moving Up from y = 0 takes
the first branch (0 - 1 = -1 < 18) and stores -1 truncated to the
uint8_t value 255 instead of wrapping to HEIGHT-1; Left from x = 0
likewise gives 255; the cursor leaves the grid. -/
theorem C4_move_cursor_eval :
    (move_cursor { sprite := 0, x := 0, y := 0 } 0 (-1)).y = 255 ∧
    (move_cursor { sprite := 0, x := 0, y := 0 } (-1) 0).x = 255 ∧
    ¬((move_cursor { sprite := 0, x := 0, y := 0 } 0 (-1)).y < HEIGHT) ∧
    ¬((move_cursor { sprite := 0, x := 0, y := 0 } (-1) 0).x < WIDTH) := by
  refine ⟨?_, ?_, ?_, ?_⟩ <;> decide

/-- C5: for every button mask, if a run of ticks all carry the mask
while the sample before the run did not, the edge-trigger guard that
gates the action of the button is true on the first tick of the run and
false on all later ticks of the run. -/
theorem C5_edge_trigger (s0 : SysState) (pads : Nat → Nat) (mask N : Nat)
    (hN : 1 ≤ N) (hprev : pressed s0.joypadPrev mask = false)
    (hheld : ∀ k, k < N → pressed (pads k) mask = true) :
    newly (pads 0) ((runTicks s0 pads 0).joypadPrev) mask = true ∧
    (∀ k, 1 ≤ k → k < N → newly (pads k) ((runTicks s0 pads k).joypadPrev) mask = false) := by
  constructor
  · show newly (pads 0) s0.joypadPrev mask = true
    unfold newly
    rw [hprev, hheld 0 (by omega)]
    rfl
  · intro k h1 h2
    obtain ⟨kk, rfl⟩ : ∃ kk, k = kk + 1 := ⟨k - 1, by omega⟩
    have hjp : (runTicks s0 pads (kk + 1)).joypadPrev = pads kk :=
      tick_joypadPrev (runTicks s0 pads kk) (pads kk)
    rw [hjp]
    unfold newly
    rw [hheld kk (by omega)]
    simp

/-- Witness for C5: B held for two ticks from the startup state fires
the guard on tick 0 only. -/
theorem C5_edge_trigger_witness :
    (1 ≤ 2 ∧ pressed pausedState.joypadPrev J_B = false ∧
     (∀ k, k < 2 → pressed (padsHeldB k) J_B = true)) ∧
    (newly (padsHeldB 0) ((runTicks pausedState padsHeldB 0).joypadPrev) J_B = true ∧
     (∀ k, 1 ≤ k → k < 2 →
       newly (padsHeldB k) ((runTicks pausedState padsHeldB k).joypadPrev) J_B = false)) :=
  ⟨⟨by decide, by decide, fun _ _ => by simp only [padsHeldB]; decide⟩,
   C5_edge_trigger pausedState padsHeldB J_B 2 (by decide) (by decide)
     (fun _ _ => by simp only [padsHeldB]; decide)⟩

/-- C6: save then load reproduces every in-bounds cell for the all-dead
grid, the all-live grid, and the glider seed, over any prior store. -/
theorem C6_save_roundtrip (sram : Nat → Nat) (x y : Nat)
    (hx : x < WIDTH) (hy : y < HEIGHT) :
    loadGrid (doSave deadGrid sram) x y = deadGrid x y ∧
    loadGrid (doSave liveGrid sram) x y = liveGrid x y ∧
    loadGrid (doSave gliderGrid sram) x y = gliderGrid x y :=
  ⟨save_load_roundtrip deadGrid sram x y hx hy,
   save_load_roundtrip liveGrid sram x y hx hy,
   save_load_roundtrip gliderGrid sram x y hx hy⟩

/-- Witness for C6 at cell (1,0) (live in the glider seed) over the
all-zero store. -/
theorem C6_save_roundtrip_witness :
    (1 < WIDTH ∧ 0 < HEIGHT) ∧
    (loadGrid (doSave deadGrid (fun _ => 0)) 1 0 = deadGrid 1 0 ∧
     loadGrid (doSave liveGrid (fun _ => 0)) 1 0 = liveGrid 1 0 ∧
     loadGrid (doSave gliderGrid (fun _ => 0)) 1 0 = gliderGrid 1 0) :=
  ⟨by decide, C6_save_roundtrip (fun _ => 0) 1 0 (by decide) (by decide)⟩

/-- C7 counterexample: starting to run with B down on ticks 0 and 1 (the
nearest realizable form of a B press on two consecutive ticks), the
press-edge fires on tick 0 only — an edge on tick 1 is impossible since
the sample of tick 0 already has the bit — the simulation pauses, and no
generation step runs on ticks 0, 1 or 2, contradicting the claimed
single generation step on tick T+2. -/
theorem C7_counterexample :
    newly (padsBB 0) runningState.joypadPrev J_B = true ∧
    newly (padsBB 1) (padsBB 0) J_B = false ∧
    (tickFull (runTicks runningState padsBB 0) (padsBB 0)).2 = false ∧
    (tickFull (runTicks runningState padsBB 1) (padsBB 1)).2 = false ∧
    (tickFull (runTicks runningState padsBB 2) (padsBB 2)).2 = false := by
  refine ⟨?_, ?_, ?_, ?_, ?_⟩ <;> decide

/-- C7 amended: an iteration with a B press-edge never reaches the
generation code; and after a pause edge on tick 0, release on tick 1 and
the earliest possible resume edge on tick 2, no generation step runs on
ticks 0, 1 and 2, and the first generation step runs on tick 3 when no
further edge occurs there. -/
theorem C7_pause_semantics :
    (∀ (s : SysState) (pad : Nat), newly pad s.joypadPrev J_B = true →
      (tickFull s pad).2 = false) ∧
    (∀ (s0 : SysState) (pads : Nat → Nat), s0.running = true →
      pressed s0.joypadPrev J_B = false → pressed (pads 0) J_B = true →
      pressed (pads 1) J_B = false → pressed (pads 2) J_B = true →
      newly (pads 3) (pads 2) J_B = false →
      (tickFull (runTicks s0 pads 0) (pads 0)).2 = false ∧
      (tickFull (runTicks s0 pads 1) (pads 1)).2 = false ∧
      (tickFull (runTicks s0 pads 2) (pads 2)).2 = false ∧
      (tickFull (runTicks s0 pads 3) (pads 3)).2 = true) := by
  constructor
  · intro s pad hb
    exact tickFull_gen_edge s pad hb
  · intro s0 pads hr hprev h0 h1 h2 h3
    have e0 : newly (pads 0) s0.joypadPrev J_B = true := by
      unfold newly
      rw [h0, hprev]
      rfl
    have hr1 : (runTicks s0 pads 1).running = false :=
      tick_run_pause s0 (pads 0) hr e0
    have hj1 : (runTicks s0 pads 1).joypadPrev = pads 0 :=
      tick_joypadPrev s0 (pads 0)
    have e1 : newly (pads 1) (runTicks s0 pads 1).joypadPrev J_B = false := by
      unfold newly
      rw [h1]
      rfl
    have hr2 : (runTicks s0 pads 2).running = false :=
      tick_paused_stay (runTicks s0 pads 1) (pads 1) hr1 e1
    have hj2 : (runTicks s0 pads 2).joypadPrev = pads 1 :=
      tick_joypadPrev (runTicks s0 pads 1) (pads 1)
    have e2 : newly (pads 2) (runTicks s0 pads 2).joypadPrev J_B = true := by
      unfold newly
      rw [hj2, h2, h1]
      rfl
    have hr3 : (runTicks s0 pads 3).running = true :=
      tick_paused_resume (runTicks s0 pads 2) (pads 2) hr2 e2
    have hj3 : (runTicks s0 pads 3).joypadPrev = pads 2 :=
      tick_joypadPrev (runTicks s0 pads 2) (pads 2)
    have e3 : newly (pads 3) (runTicks s0 pads 3).joypadPrev J_B = false := by
      rw [hj3]
      exact h3
    exact ⟨tickFull_gen_edge s0 (pads 0) e0,
           tickFull_gen_paused (runTicks s0 pads 1) (pads 1) hr1,
           tickFull_gen_paused (runTicks s0 pads 2) (pads 2) hr2,
           tickFull_gen_true (runTicks s0 pads 3) (pads 3) hr3 e3⟩

/-- Witness for C7 on the concrete pause-release-resume-hold inputs. -/
theorem C7_pause_semantics_witness :
    (newly J_B runningState.joypadPrev J_B = true ∧
     (tickFull runningState J_B).2 = false) ∧
    ((runningState.running = true ∧ pressed runningState.joypadPrev J_B = false ∧
      pressed (padsPauseResume 0) J_B = true ∧ pressed (padsPauseResume 1) J_B = false ∧
      pressed (padsPauseResume 2) J_B = true ∧
      newly (padsPauseResume 3) (padsPauseResume 2) J_B = false) ∧
     ((tickFull (runTicks runningState padsPauseResume 0) (padsPauseResume 0)).2 = false ∧
      (tickFull (runTicks runningState padsPauseResume 1) (padsPauseResume 1)).2 = false ∧
      (tickFull (runTicks runningState padsPauseResume 2) (padsPauseResume 2)).2 = false ∧
      (tickFull (runTicks runningState padsPauseResume 3) (padsPauseResume 3)).2 = true)) :=
  ⟨⟨by decide, C7_pause_semantics.1 runningState J_B (by decide)⟩,
   ⟨⟨rfl, by decide, by decide, by decide, by decide, by decide⟩,
    C7_pause_semantics.2 runningState padsPauseResume rfl (by decide) (by decide)
      (by decide) (by decide) (by decide)⟩⟩

/-- C8: with a save marker present, a cell loads live exactly when its
persisted byte equals the live sentinel; every other byte value loads as
dead, and loading is total. -/
theorem C8_load_total (sram : Nat → Nat) (x y : Nat) (hx : x < WIDTH) (hy : y < HEIGHT)
    (hm : sram 0 = byteS) :
    (loadGrid sram x y = true ↔ sram (1 + (x * HEIGHT + y)) = byteL) := by
  rw [loadGrid_char sram x y hx hy, hm]
  simp

/-- Witness for C8 at cell (0,0) of the marker-only store (byte 0 is not
the live sentinel, so the cell is dead and both iff sides are false). -/
theorem C8_load_total_witness :
    (0 < WIDTH ∧ 0 < HEIGHT ∧ markerOnlySram 0 = byteS) ∧
    (loadGrid markerOnlySram 0 0 = true ↔ markerOnlySram (1 + (0 * HEIGHT + 0)) = byteL) :=
  ⟨⟨by decide, by decide, rfl⟩, C8_load_total markerOnlySram 0 0 (by decide) (by decide) rfl⟩

/-- C9: without the save marker, every cell of the freshly initialized
grid is dead, whatever the remaining store bytes hold. -/
theorem C9_no_save_all_dead (sram : Nat → Nat) (hm : sram 0 ≠ byteS) (x y : Nat)
    (hx : x < WIDTH) (hy : y < HEIGHT) :
    loadGrid sram x y = false := by
  unfold loadGrid
  have hls : (sram 0 == byteS) = false := by simp [hm]
  rw [hls]
  exact loadLoop_false sram cellList 1 (fun _ _ => false) (fun _ _ => rfl) x y

/-- Witness for C9 on the all-zero store at cell (0,0). -/
theorem C9_no_save_all_dead_witness :
    ((fun _ : Nat => 0) 0 ≠ byteS ∧ 0 < WIDTH ∧ 0 < HEIGHT) ∧
    loadGrid (fun _ => 0) 0 0 = false :=
  ⟨⟨by decide, by decide, by decide⟩,
   C9_no_save_all_dead (fun _ => 0) (by decide) 0 0 (by decide) (by decide)⟩

/-- C10: a tick that performs a generation pass leaves the cursor
position, the running flag and the persisted store unchanged. -/
theorem C10_frame_effect (s : SysState) (pad : Nat) (hr : s.running = true)
    (hb : newly pad s.joypadPrev J_B = false) :
    (tick s pad).cursor = s.cursor ∧ (tick s pad).running = s.running ∧
    (tick s pad).sram = s.sram := by
  unfold tick tickFull
  simp [hr, hb]

/-- Witness for C10 on a concrete running state with no input. -/
theorem C10_frame_effect_witness :
    (runningState.running = true ∧ newly 0 runningState.joypadPrev J_B = false) ∧
    ((tick runningState 0).cursor = runningState.cursor ∧
     (tick runningState 0).running = runningState.running ∧
     (tick runningState 0).sram = runningState.sram) :=
  ⟨⟨rfl, by decide⟩, C10_frame_effect runningState 0 rfl (by decide)⟩
